import Mathlib

/-!
# Verification of the galaxy-mask mask/coordinate/geometry core

Shallow embedding of the core of the `galaxy-mask` repository:

* `src/lib/mask.ts` — coordinate codec (`coordToKey` / `keyToCoord`),
  dense-matrix conversions (`arrayToSet` / `setToArray`), `areMasksEqual`;
* `src/components/Heatmap.vue` — local mask operations
  (`addMaskCoordinates`, `removeMaskCoordinates`, `updateMask`,
  `handleMaskUpdate`/`handleMaskUpdates`), the rectangle selection
  (`handleSelectionComplete`), the polygon rasterizer (`closeShape`,
  `isCellIntersectingPolygon`, `isPointInPolygon`, `lineIntersectsRect`,
  `linesIntersect`), the device-to-grid mapping
  (`getCellFromMousePosition`), and the pointer/keyboard event handlers;
* `src/App.vue` — the CSV cell parser of `parseCSVFile`.

Strings are modelled as `List Char`; JS `Set<string>` as `Finset (List Char)`;
JS numbers as `ℚ` (every computation the claims touch is exact in the doubles
the source uses, so exact rational arithmetic is a faithful model); `NaN`
results of `Number(...)` as `none` in an `Option` result.
-/

/-- A mask key: the repository uses plain JS strings; we model a string as
its list of characters. -/
abbrev Key := List Char

/-! ## Coordinate codec (`src/lib/mask.ts`) -/

/-- The character of one decimal digit (only arguments `< 10` arise): code
point 48 (`'0'`) plus the digit value.  Models how JS template interpolation
renders each digit of a number. -/
def digitChar (d : ℕ) : Char := Char.ofNat (48 + d)

/-- Decimal rendering of a natural number, most significant digit first.
The first argument is recursion fuel (taking `fuel = n` suffices); renders
`n = 0` as the empty list. -/
def natToCharsGo : ℕ → ℕ → List Char
  | 0, _ => []
  | fuel + 1, n =>
    if n = 0 then [] else natToCharsGo fuel (n / 10) ++ [digitChar (n % 10)]

/-- Decimal rendering of a natural number as JS renders it in a template
literal (`0` renders as `"0"`). -/
def natToChars (n : ℕ) : List Char := if n = 0 then ['0'] else natToCharsGo n n

/-- `coordToKey` from `src/lib/mask.ts`:
`(i, j) => ` the string `` `${i},${j}` ``. -/
def coordToKey (i j : ℕ) : Key := natToChars i ++ ',' :: natToChars j

/-- The numeric value of a decimal digit character (code point minus 48),
`none` on anything else. -/
def charDigit? (c : Char) : Option ℕ :=
  if '0' ≤ c ∧ c ≤ '9' then some (c.toNat - 48) else none

/-- Value of a string of decimal digits; `none` if any character is not a
digit; the empty string evaluates to `0` (matching JS `Number("") = 0`). -/
def digitsVal (s : List Char) : Option ℕ :=
  s.foldl (fun acc c => acc.bind fun a => (charDigit? c).map fun d => 10 * a + d)
    (some 0)

/-- JS `Number(s)`, modelled on the string shapes the theorems of this file
quantify over: the empty string evaluates to `0`, an optional leading `'-'`
followed by decimal digits evaluates to the signed integer, and every other
string is mapped to `none` (`NaN`).  Faithfulness: on digit strings,
`'-'`-prefixed digit strings and the empty string — the only inputs the
codec, dense-matrix and CSV theorems apply it to — this agrees with JS; and
on any string containing a character outside `jsNumericChar` (below), JS
`Number` also returns `NaN`, so `none` is faithful there too.  On the
remaining inputs (whitespace-padded, `'+'`-prefixed, fractional, exponent,
hex/octal/binary or `Infinity` forms) JS returns a number while this model
returns `none`; no theorem in this file quantifies over those inputs. -/
def jsNumber (s : List Char) : Option ℤ :=
  if s.head? = some '-' then
    if s.tail = [] then none else (digitsVal s.tail).map fun n => -(n : ℤ)
  else (digitsVal s).map fun n => (n : ℤ)

/-- Conservative overapproximation of the characters that can occur in a
string JS `Number` maps to a number (rather than `NaN`): whitespace and
control characters (trimmed by `Number`), all non-ASCII code points (which
include Unicode whitespace), signs, the decimal point, decimal digits, the
hex digits `a`–`f`/`A`–`F` (which also cover the exponent marker `e`/`E`
and the base markers `b`, `o` after `0`), the radix markers `x`/`X`, `o`/`O`
and the letters of `Infinity`/`NaN`.  A string containing any character
outside this set is mapped to `NaN` by JS `Number`. -/
def jsNumericChar (c : Char) : Prop :=
  c.toNat ≤ 32 ∨ 128 ≤ c.toNat ∨ c = '+' ∨ c = '-' ∨ c = '.' ∨
    ('0' ≤ c ∧ c ≤ '9') ∨ ('a' ≤ c ∧ c ≤ 'f') ∨ ('A' ≤ c ∧ c ≤ 'F') ∨
    c = 'i' ∨ c = 'I' ∨ c = 'n' ∨ c = 'N' ∨ c = 'o' ∨ c = 'O' ∨
    c = 't' ∨ c = 'T' ∨ c = 'x' ∨ c = 'X' ∨ c = 'y' ∨ c = 'Y'

instance (c : Char) : Decidable (jsNumericChar c) := by
  unfold jsNumericChar
  infer_instance

/-- JS `String.prototype.split(',')` on a character list: splits into the
(possibly empty) groups between commas. -/
def splitOnComma : List Char → List (List Char)
  | [] => [[]]
  | c :: rest =>
    if c = ',' then [] :: splitOnComma rest
    else (c :: (splitOnComma rest).headI) :: (splitOnComma rest).tail

/-- `keyToCoord` from `src/lib/mask.ts`: `key.split(',').map(Number)`.
Each component is an `Option ℤ`; `none` models a `NaN` component. -/
def keyToCoord (key : Key) : List (Option ℤ) := (splitOnComma key).map jsNumber

/-! ### Codec lemmas -/

lemma digitChar_ne {d : ℕ} (h : d < 10) :
    digitChar d ≠ ',' ∧ digitChar d ≠ '-' := by
  interval_cases d <;> exact ⟨by decide, by decide⟩

lemma charDigit?_digitChar {d : ℕ} (h : d < 10) :
    charDigit? (digitChar d) = some d := by
  interval_cases d <;> rfl

lemma mem_natToCharsGo_ne {c : Char} :
    ∀ {fuel n : ℕ}, c ∈ natToCharsGo fuel n → c ≠ ',' ∧ c ≠ '-'
  | 0, _, h => by simp [natToCharsGo] at h
  | fuel + 1, n, h => by
    rw [natToCharsGo] at h
    split at h
    · simp at h
    · rcases List.mem_append.1 h with h' | h'
      · exact mem_natToCharsGo_ne h'
      · simp at h'
        subst h'
        exact digitChar_ne (Nat.mod_lt _ (by norm_num))

lemma mem_natToChars_ne {c : Char} {n : ℕ} (h : c ∈ natToChars n) :
    c ≠ ',' ∧ c ≠ '-' := by
  unfold natToChars at h
  split at h
  · simp at h
    subst h
    exact ⟨by decide, by decide⟩
  · exact mem_natToCharsGo_ne h

lemma comma_not_mem_natToChars (n : ℕ) : ',' ∉ natToChars n := by
  intro h
  exact (mem_natToChars_ne h).1 rfl

lemma natToChars_ne_nil (n : ℕ) : natToChars n ≠ [] := by
  unfold natToChars
  split
  · simp
  · obtain ⟨m, rfl⟩ : ∃ m, n = m + 1 := ⟨n - 1, by omega⟩
    rw [natToCharsGo]
    split
    · omega
    · simp

lemma natToChars_head?_ne_minus (n : ℕ) : (natToChars n).head? ≠ some '-' := by
  intro h
  rcases hl : natToChars n with _ | ⟨c, rest⟩
  · exact natToChars_ne_nil n hl
  · rw [hl] at h
    simp at h
    have hc : c ∈ natToChars n := by
      rw [hl]; simp
    exact (mem_natToChars_ne hc).2 h

lemma digitsVal_append_singleton (xs : List Char) (c : Char) :
    digitsVal (xs ++ [c]) =
      (digitsVal xs).bind fun a => (charDigit? c).map fun d => 10 * a + d := by
  unfold digitsVal
  rw [List.foldl_append]
  rfl

lemma digitsVal_natToCharsGo (fuel : ℕ) : ∀ n : ℕ, n ≤ fuel →
    digitsVal (natToCharsGo fuel n) = some n := by
  induction fuel with
  | zero =>
    intro n h
    interval_cases n
    simp [natToCharsGo, digitsVal]
  | succ fuel ih =>
    intro n h
    rw [natToCharsGo]
    split
    · subst ‹n = 0›
      simp [digitsVal]
    · have hdiv : n / 10 < n := Nat.div_lt_self (by omega) (by norm_num)
      rw [digitsVal_append_singleton, ih (n / 10) (by omega),
        charDigit?_digitChar (Nat.mod_lt _ (by norm_num))]
      simp
      omega

lemma digitsVal_natToChars (n : ℕ) : digitsVal (natToChars n) = some n := by
  unfold natToChars
  split
  · subst ‹n = 0›
    rfl
  · exact digitsVal_natToCharsGo n n le_rfl

lemma jsNumber_natToChars (n : ℕ) : jsNumber (natToChars n) = some (n : ℤ) := by
  unfold jsNumber
  rw [if_neg (natToChars_head?_ne_minus n), digitsVal_natToChars]
  rfl

lemma splitOnComma_no_comma {a : List Char} (h : ',' ∉ a) :
    splitOnComma a = [a] := by
  induction a with
  | nil => rfl
  | cons c rest ih =>
    rw [splitOnComma]
    have hc : c ≠ ',' := fun hc => h (by simp [hc])
    rw [if_neg hc, ih (fun hm => h (by simp [hm]))]
    simp

lemma splitOnComma_append {a : List Char} (b : List Char) (h : ',' ∉ a) :
    splitOnComma (a ++ ',' :: b) = a :: splitOnComma b := by
  induction a with
  | nil => simp [splitOnComma]
  | cons c rest ih =>
    have hc : c ≠ ',' := fun hc => h (by simp [hc])
    rw [List.cons_append, splitOnComma, if_neg hc,
      ih (fun hm => h (by simp [hm]))]
    simp

lemma keyToCoord_coordToKey (i j : ℕ) :
    keyToCoord (coordToKey i j) = [some (i : ℤ), some (j : ℤ)] := by
  unfold keyToCoord coordToKey
  rw [splitOnComma_append _ (comma_not_mem_natToChars i),
    splitOnComma_no_comma (comma_not_mem_natToChars j)]
  simp [jsNumber_natToChars]

/-! ## Dense-matrix conversions and mask equality (`src/lib/mask.ts`) -/

/-- `arrayToSet` from `src/lib/mask.ts`: every `true` cell `(i, j)` of the
dense boolean matrix contributes the key `coordToKey i j`. -/
def arrayToSet (mask : List (List Bool)) : Finset Key :=
  ((List.range mask.length).flatMap fun i =>
    (List.range (mask.getD i []).length).filterMap fun j =>
      if (mask.getD i []).getD j false then some (coordToKey i j) else none).toFinset

/-- `setToArray` from `src/lib/mask.ts`: a `rows × cols` matrix, initially
all `false`; each key of the set is decoded and, when the decoded pair is in
`[0,rows) × [0,cols)`, the corresponding cell is set `true`.  Purified:
cell `(i, j)` is `true` iff some key of the set decodes to `(i, j)` (the
source's range check is equivalent to the cell position being in range). -/
def setToArray (maskSet : Finset Key) (rows cols : ℕ) : List (List Bool) :=
  (List.range rows).map fun (i : ℕ) =>
    (List.range cols).map fun (j : ℕ) =>
      decide (∃ k ∈ maskSet, (keyToCoord k).getD 0 none = some (i : ℤ) ∧
        (keyToCoord k).getD 1 none = some (j : ℤ))

/-- `areMasksEqual` from `src/lib/mask.ts`: `false` when the first mask is
absent or the sizes differ, otherwise every key of the first must be in the
second. -/
def areMasksEqual (mask1 : Option (Finset Key)) (mask2 : Finset Key) : Bool :=
  match mask1 with
  | none => false
  | some m1 => if m1.card = mask2.card then decide (∀ k ∈ m1, k ∈ mask2) else false

lemma areMasksEqual_iff (m1 m2 : Finset Key) :
    areMasksEqual (some m1) m2 = true ↔ m1 = m2 := by
  show (if m1.card = m2.card then decide (∀ k ∈ m1, k ∈ m2) else false) = true ↔ _
  split
  · rename_i hcard
    simp only [decide_eq_true_eq]
    constructor
    · intro h
      exact Finset.eq_of_subset_of_card_le (fun k hk => h k hk)
        (le_of_eq hcard.symm)
    · rintro rfl
      exact fun k hk => hk
  · rename_i hcard
    constructor
    · intro h
      simp at h
    · rintro rfl
      exact absurd rfl hcard

/-! ## Local mask operations (`src/components/Heatmap.vue`) -/

/-- `addMaskCoordinates` from `Heatmap.vue`: for each coordinate `{x, y}`
(in that order: `x` = column, `y` = row), if the key `coordToKey y x` is not
yet in the local mask, add it and record the coordinate.  Returns the new
mask and the list of newly added coordinates.  (The source's
re-initialisation of an empty set is a no-op and is dropped.) -/
def addMaskCoordinates (coordinates : List (ℕ × ℕ)) (localMask : Finset Key) :
    Finset Key × List (ℕ × ℕ) :=
  coordinates.foldl
    (fun st c =>
      if coordToKey c.2 c.1 ∈ st.1 then st
      else (insert (coordToKey c.2 c.1) st.1, st.2 ++ [c]))
    (localMask, [])

/-- `removeMaskCoordinates` from `Heatmap.vue`: for each coordinate `{x, y}`,
if the key `coordToKey y x` is in the local mask, delete it and record the
coordinate.  Returns the new mask and the list of newly removed
coordinates. -/
def removeMaskCoordinates (coordinates : List (ℕ × ℕ)) (localMask : Finset Key) :
    Finset Key × List (ℕ × ℕ) :=
  coordinates.foldl
    (fun st c =>
      if coordToKey c.2 c.1 ∈ st.1 then (st.1.erase (coordToKey c.2 c.1), st.2 ++ [c])
      else st)
    (localMask, [])

/-- First loop of `updateMask` in `Heatmap.vue`: the keys of the new snapshot
missing from the local mask (each is added to the local mask and recorded). -/
def maskDiffToAdd (localMask newMaskSet : Finset Key) : Finset Key :=
  newMaskSet.filter fun k => k ∉ localMask

/-- Second loop of `updateMask` in `Heatmap.vue`: iterates the local mask
after the additions and deletes (and records) every key absent from the new
snapshot. -/
def maskDiffToRemove (localMask newMaskSet : Finset Key) : Finset Key :=
  (localMask ∪ maskDiffToAdd localMask newMaskSet).filter fun k => k ∉ newMaskSet

/-- `updateMask` from `Heatmap.vue`, purified: when the incoming snapshot is
non-empty, add the missing keys, then delete the stale ones (the per-key
operations of each loop commute, so each loop equals a filter plus one bulk
union / set difference); `cellsToUpdate` is the union of the two recorded
batches.  Returns the new local mask and the batch of changed keys.  When
the snapshot is empty, nothing happens. -/
def updateMask (localMask newMaskSet : Finset Key) : Finset Key × Finset Key :=
  if 0 < newMaskSet.card then
    ((localMask ∪ maskDiffToAdd localMask newMaskSet) \
        maskDiffToRemove localMask newMaskSet,
      maskDiffToAdd localMask newMaskSet ∪ maskDiffToRemove localMask newMaskSet)
  else (localMask, ∅)

lemma addMaskCoordinates_foldl_fst_mem (coordinates : List (ℕ × ℕ)) :
    ∀ (m : Finset Key) (acc : List (ℕ × ℕ)) (k : Key),
      (k ∈ (coordinates.foldl
        (fun st c =>
          if coordToKey c.2 c.1 ∈ st.1 then st
          else (insert (coordToKey c.2 c.1) st.1, st.2 ++ [c]))
        (m, acc)).1) ↔
      k ∈ m ∨ ∃ c ∈ coordinates, k = coordToKey c.2 c.1 := by
  induction coordinates with
  | nil => simp
  | cons c cs ih =>
    intro m acc k
    simp only [List.foldl_cons]
    split
    · rename_i hmem
      rw [ih]
      simp only [List.mem_cons]
      constructor
      · rintro (h | ⟨c', hc', rfl⟩)
        · exact Or.inl h
        · exact Or.inr ⟨c', Or.inr hc', rfl⟩
      · rintro (h | ⟨c', hc' | hc', rfl⟩)
        · exact Or.inl h
        · subst hc'
          exact Or.inl hmem
        · exact Or.inr ⟨c', hc', rfl⟩
    · rw [ih]
      simp only [Finset.mem_insert, List.mem_cons]
      constructor
      · rintro ((h | h) | ⟨c', hc', rfl⟩)
        · exact Or.inr ⟨c, Or.inl rfl, h⟩
        · exact Or.inl h
        · exact Or.inr ⟨c', Or.inr hc', rfl⟩
      · rintro (h | ⟨c', hc' | hc', rfl⟩)
        · exact Or.inl (Or.inr h)
        · subst hc'
          exact Or.inl (Or.inl rfl)
        · exact Or.inr ⟨c', hc', rfl⟩

lemma addMaskCoordinates_fst_mem (coordinates : List (ℕ × ℕ))
    (m : Finset Key) (k : Key) :
    k ∈ (addMaskCoordinates coordinates m).1 ↔
      k ∈ m ∨ ∃ c ∈ coordinates, k = coordToKey c.2 c.1 :=
  addMaskCoordinates_foldl_fst_mem coordinates m [] k

lemma removeMaskCoordinates_foldl_fst_mem (coordinates : List (ℕ × ℕ)) :
    ∀ (m : Finset Key) (acc : List (ℕ × ℕ)) (k : Key),
      (k ∈ (coordinates.foldl
        (fun st c =>
          if coordToKey c.2 c.1 ∈ st.1 then
            (st.1.erase (coordToKey c.2 c.1), st.2 ++ [c])
          else st)
        (m, acc)).1) ↔
      k ∈ m ∧ ¬∃ c ∈ coordinates, k = coordToKey c.2 c.1 := by
  induction coordinates with
  | nil => simp
  | cons c cs ih =>
    intro m acc k
    simp only [List.foldl_cons]
    split
    · rename_i hmem
      rw [ih]
      simp only [Finset.mem_erase, List.mem_cons]
      constructor
      · rintro ⟨⟨hne, hm⟩, hnot⟩
        refine ⟨hm, ?_⟩
        rintro ⟨c', hc' | hc', rfl⟩
        · exact hne (by rw [hc'])
        · exact hnot ⟨c', hc', rfl⟩
      · rintro ⟨hm, hnot⟩
        refine ⟨⟨fun he => hnot ⟨c, Or.inl rfl, he⟩, hm⟩, ?_⟩
        rintro ⟨c', hc', rfl⟩
        exact hnot ⟨c', Or.inr hc', rfl⟩
    · rename_i hmem
      rw [ih]
      simp only [List.mem_cons]
      constructor
      · rintro ⟨hm, hnot⟩
        refine ⟨hm, ?_⟩
        rintro ⟨c', hc' | hc', rfl⟩
        · subst hc'
          exact hmem hm
        · exact hnot ⟨c', hc', rfl⟩
      · rintro ⟨hm, hnot⟩
        refine ⟨hm, ?_⟩
        rintro ⟨c', hc', rfl⟩
        exact hnot ⟨c', Or.inr hc', rfl⟩

lemma removeMaskCoordinates_fst_mem (coordinates : List (ℕ × ℕ))
    (m : Finset Key) (k : Key) :
    k ∈ (removeMaskCoordinates coordinates m).1 ↔
      k ∈ m ∧ ¬∃ c ∈ coordinates, k = coordToKey c.2 c.1 :=
  removeMaskCoordinates_foldl_fst_mem coordinates m [] k


/-! ## Polygon rasterization (`src/components/Heatmap.vue`)

JS numbers are modelled as exact rationals; every computation the claims
exercise stays on small half-integer values, where double arithmetic is
exact, so the model is faithful. -/

/-- `isPointInPolygon` from `Heatmap.vue`: ray casting (even-odd rule).
Iteration `i` pairs vertex `i` with the previous vertex
(`j = i - 1`, starting at `n - 1`), i.e. `j = (i + n - 1) % n`. -/
def isPointInPolygon (x y : ℚ) (polygon : List (ℚ × ℚ)) : Bool :=
  let n := polygon.length
  (List.range n).foldl
    (fun inside i =>
      let p := polygon.getD i (0, 0)
      let q := polygon.getD ((i + n - 1) % n) (0, 0)
      if ((p.2 > y) ≠ (q.2 > y)) ∧
          x < (q.1 - p.1) * (y - p.2) / (q.2 - p.2) + p.1 then
        !inside
      else inside)
    false

/-- `linesIntersect` from `Heatmap.vue`: two segments intersect iff neither
pair of cross products has a strictly positive product (signed-area test). -/
def linesIntersect (a1 a2 b1 b2 : ℚ × ℚ) : Bool :=
  let det : ℚ × ℚ → ℚ × ℚ → ℚ := fun a b => a.1 * b.2 - a.2 * b.1
  let delta : ℚ × ℚ := (a2.1 - a1.1, a2.2 - a1.2)
  let delta1 : ℚ × ℚ := (b1.1 - a1.1, b1.2 - a1.2)
  let delta2 : ℚ × ℚ := (b2.1 - a1.1, b2.2 - a1.2)
  let d := det delta delta1
  let d1 := det delta delta2
  if d * d1 > 0 then false
  else
    let delta3 : ℚ × ℚ := (b2.1 - b1.1, b2.2 - b1.2)
    let delta4 : ℚ × ℚ := (a1.1 - b1.1, a1.2 - b1.2)
    let delta5 : ℚ × ℚ := (a2.1 - b1.1, a2.2 - b1.2)
    let d2 := det delta3 delta4
    let d3 := det delta3 delta5
    if d2 * d3 > 0 then false else true

/-- A JS `{x, y, width, height}` rectangle. -/
structure JsRect where
  x : ℚ
  y : ℚ
  width : ℚ
  height : ℚ

/-- `lineIntersectsRect` from `Heatmap.vue`: bounding-box rejection, then the
segment is tested against each of the four rectangle edges. -/
def lineIntersectsRect (lineStart lineEnd : ℚ × ℚ) (rect : JsRect) : Bool :=
  let rectLeft := rect.x
  let rectRight := rect.x + rect.width
  let rectTop := rect.y
  let rectBottom := rect.y + rect.height
  if max lineStart.1 lineEnd.1 < rectLeft ∨
      min lineStart.1 lineEnd.1 > rectRight ∨
      max lineStart.2 lineEnd.2 < rectTop ∨
      min lineStart.2 lineEnd.2 > rectBottom then false
  else
    [((rectLeft, rectTop), (rectRight, rectTop)),
     ((rectRight, rectTop), (rectRight, rectBottom)),
     ((rectRight, rectBottom), (rectLeft, rectBottom)),
     ((rectLeft, rectBottom), (rectLeft, rectTop))].any
      fun e => linesIntersect lineStart lineEnd e.1 e.2

/-- `isCellIntersectingPolygon` from `Heatmap.vue`: the cell is included if
its center `(x + 0.5, y + 0.5)` is inside the polygon, or if some polygon
edge intersects the `{x, y, 0.5, 0.5}` rectangle. -/
def isCellIntersectingPolygon (x y : ℚ) (polygon : List (ℚ × ℚ)) : Bool :=
  if isPointInPolygon (x + 1/2) (y + 1/2) polygon then true
  else
    (List.range polygon.length).any fun i =>
      lineIntersectsRect (polygon.getD i (0, 0))
        (polygon.getD ((i + 1) % polygon.length) (0, 0))
        ⟨x, y, 1/2, 1/2⟩

/-- The `cellsInShape` computation of `closeShape` in `Heatmap.vue`: with
fewer than 3 vertices the commit is discarded and no cell is produced;
otherwise every grid cell `(x, y)` with `y < rows`, `x < cols` that
intersects the polygon is collected (row-major, matching the source's
loops). -/
def closeShapeCells (shapeNodes : List (ℕ × ℕ)) (rows cols : ℕ) :
    List (ℕ × ℕ) :=
  if shapeNodes.length < 3 then []
  else
    (List.range rows).flatMap fun (y : ℕ) =>
      (List.range cols).filterMap fun (x : ℕ) =>
        if isCellIntersectingPolygon (x : ℚ) (y : ℚ)
            (shapeNodes.map fun c => ((c.1 : ℚ), (c.2 : ℚ))) then
          some (x, y)
        else none

/-! ## Mask update dispatch and shape commit (`Heatmap.vue`) -/

/-- `handleMaskUpdates` from `Heatmap.vue`: in `"mask"` mode the batch is
added, in `"erase"` mode removed; any other mode does nothing.  Returns the
new local mask and the emitted `update:mask` payload (`values`, `add`) when
the changed batch is non-empty. -/
def handleMaskUpdates (mode : String) (coordinates : List (ℕ × ℕ))
    (localMask : Finset Key) : Finset Key × Option (List (ℕ × ℕ) × Bool) :=
  if mode = "mask" then
    let r := addMaskCoordinates coordinates localMask
    (r.1, if r.2.length > 0 then some (r.2, true) else none)
  else if mode = "erase" then
    let r := removeMaskCoordinates coordinates localMask
    (r.1, if r.2.length > 0 then some (r.2, false) else none)
  else (localMask, none)

/-- `handleMaskUpdate` from `Heatmap.vue`: the single-coordinate case; its
body is `handleMaskUpdates` on the one-element batch. -/
def handleMaskUpdate (mode : String) (c : ℕ × ℕ) (localMask : Finset Key) :
    Finset Key × Option (List (ℕ × ℕ) × Bool) :=
  handleMaskUpdates mode [c] localMask

/-- `closeShape` from `Heatmap.vue`, acting on the local mask: with fewer
than 3 vertices the shape is discarded with no mutation; otherwise the
rasterized cells (if any) go through `handleMaskUpdates`.  (The vertex list
is cleared by the caller in every path.) -/
def closeShape (shapeNodes : List (ℕ × ℕ)) (rows cols : ℕ) (mode : String)
    (localMask : Finset Key) : Finset Key × Option (List (ℕ × ℕ) × Bool) :=
  if shapeNodes.length < 3 then (localMask, none)
  else if 0 < (closeShapeCells shapeNodes rows cols).length then
    handleMaskUpdates mode (closeShapeCells shapeNodes rows cols) localMask
  else (localMask, none)

/-! ## Rectangle selection (`Heatmap.vue`) -/

/-- The `selectedCells` computation of `handleSelectionComplete` in
`Heatmap.vue`: per-axis min/max of the two corners, then every cell of the
inclusive bounding box that passes the grid-bounds check (the `≥ 0` half of
the source's check is vacuous on `ℕ`). -/
def selectedCells (selectionStart selectionEnd : ℕ × ℕ) (rows cols : ℕ) :
    List (ℕ × ℕ) :=
  let minX := min selectionStart.1 selectionEnd.1
  let maxX := max selectionStart.1 selectionEnd.1
  let minY := min selectionStart.2 selectionEnd.2
  let maxY := max selectionStart.2 selectionEnd.2
  (List.range' minY (maxY - minY + 1)).flatMap fun y =>
    (List.range' minX (maxX - minX + 1)).filterMap fun x =>
      if x < cols ∧ y < rows then some (x, y) else none

/-! ## Device-to-grid mapping (`Heatmap.vue`) -/

/-- The cell size: `squareSize` in `Heatmap.vue` is the constant base size
of 6 pixels. -/
def squareSize : ℚ := 6

/-- `getCellFromMousePosition` from `Heatmap.vue`.  Arguments: the pointer's
client position, the container's bounding rectangle (left, top, width,
height), the zoom transform (translation `tx`, `ty` and scale `k`), and the
grid dimensions.  Subtracts the viewport-relative origin, inverts the
translate-and-scale transform, subtracts the centering offset, divides by
the cell size and floors; `none` when outside `[0,cols) × [0,rows)`. -/
def getCellFromMousePosition (clientX clientY rectLeft rectTop rectWidth
    rectHeight tx ty k : ℚ) (rows cols : ℕ) : Option (ℤ × ℤ) :=
  let mouseX := clientX - rectLeft
  let mouseY := clientY - rectTop
  let dataX := (mouseX - tx) / k
  let dataY := (mouseY - ty) / k
  let totalDataWidth := (cols : ℚ) * squareSize
  let totalDataHeight := (rows : ℚ) * squareSize
  let offsetX := (rectWidth - totalDataWidth) / 2
  let offsetY := (rectHeight - totalDataHeight) / 2
  let cellX := ⌊(dataX - offsetX) / squareSize⌋
  let cellY := ⌊(dataY - offsetY) / squareSize⌋
  if 0 ≤ cellX ∧ cellX < (cols : ℤ) ∧ 0 ≤ cellY ∧ cellY < (rows : ℤ) then
    some (cellX, cellY)
  else none

/-! ## CSV cell parsing (`src/App.vue`) -/

/-- The cell parser inside `parseCSVFile` in `src/App.vue`:
`cell => cell || cell === '0' ? Number(cell) : null`.  A JS string is truthy
iff non-empty; the outer `none` is the `null` "no value" sentinel, the inner
option is the `Number` result (`none` = `NaN`). -/
def parseCell (cell : List Char) : Option (Option ℤ) :=
  if cell ≠ [] ∨ cell = ['0'] then some (jsNumber cell) else none

/-- One row of `parseCSVFile` in `src/App.vue`: each token of the parsed CSV
row goes through the cell parser. -/
def parseCSVRow (row : List (List Char)) : List (Option (Option ℤ)) :=
  row.map parseCell

/-! ## Pointer/keyboard event handling (`Heatmap.vue`)

The document-level handlers installed by `createHeatmap`, plus the per-cell
`mousedown` handler attached to each heatmap rectangle.  A pointer event is
abstracted to the grid cell the pointer resolves to through
`getCellFromMousePosition` (`none` when outside the grid); only primary
button events are modelled, as in the source's `event.button === 0` guards.
The overlay graphics (selection rectangle, shape lines) and the unread
`isDragging` flag are not part of the state; `clearShape` is modelled as
resetting the vertex list. -/

/-- The mutable state read and written by the `Heatmap.vue` handlers:
the `mode`/`tool` props, the modifier/button flags, the selection and shape
gesture state, the local mask, and the grid dimensions. -/
structure HState where
  mode : String
  tool : String
  isShiftPressed : Bool
  isCtrlPressed : Bool
  isMousePressed : Bool
  isSelecting : Bool
  selectionStart : Option (ℕ × ℕ)
  selectionEnd : Option (ℕ × ℕ)
  lastMaskedCell : Option (ℕ × ℕ)
  shapeNodes : List (ℕ × ℕ)
  localMask : Finset Key
  rows : ℕ
  cols : ℕ

/-- The pointer/keyboard events dispatched to the `Heatmap.vue` handlers. -/
inductive HEvent where
  | keyDown (key : String)
  | keyUp (key : String)
  | mouseDown (cell : Option (ℕ × ℕ))
  | mouseUp (cell : Option (ℕ × ℕ))
  | mouseMove (cell : Option (ℕ × ℕ))
  | cellMouseDown (cell : ℕ × ℕ)

/-- `addShapeNode` from `Heatmap.vue`: a click on the first vertex commits
the shape (`closeShape`); otherwise the cell is appended to the vertex
list. -/
def addShapeNode (s : HState) (cell : ℕ × ℕ) : HState :=
  if 0 < s.shapeNodes.length ∧ s.shapeNodes.headI = cell then
    { s with
      localMask := (closeShape s.shapeNodes s.rows s.cols s.mode s.localMask).1
      shapeNodes := [] }
  else { s with shapeNodes := s.shapeNodes ++ [cell] }

/-- `handleKeyDown` from `Heatmap.vue`: tracks Shift/Ctrl(Meta), and in
shape tool with mask/erase mode, Escape discards the vertices and Enter
commits the shape. -/
def handleKeyDown (s : HState) (key : String) : HState :=
  let s1 := if key = "Shift" then { s with isShiftPressed := true } else s
  let s2 :=
    if key = "Control" ∨ key = "Meta" then { s1 with isCtrlPressed := true }
    else s1
  if s2.tool = "shape" ∧ (s2.mode = "mask" ∨ s2.mode = "erase") then
    if key = "Escape" then { s2 with shapeNodes := [] }
    else if key = "Enter" then
      { s2 with
        localMask := (closeShape s2.shapeNodes s2.rows s2.cols s2.mode
          s2.localMask).1
        shapeNodes := [] }
    else s2
  else s2

/-- `handleKeyUp` from `Heatmap.vue`. -/
def handleKeyUp (s : HState) (key : String) : HState :=
  let s1 :=
    if key = "Shift" then
      { s with isShiftPressed := false, lastMaskedCell := none }
    else s
  if key = "Control" ∨ key = "Meta" then { s1 with isCtrlPressed := false }
  else s1

/-- `handleMouseDown` from `Heatmap.vue` (primary button): records the
pressed state, and in select tool with mask/erase mode starts a selection
at the cell under the pointer. -/
def handleMouseDown (s : HState) (cell : Option (ℕ × ℕ)) : HState :=
  let s1 := { s with isMousePressed := true, lastMaskedCell := none }
  if s1.tool = "select" ∧ (s1.mode = "mask" ∨ s1.mode = "erase") then
    match cell with
    | some c =>
      { s1 with
        isSelecting := true
        selectionStart := some c
        selectionEnd := some c }
    | none => s1
  else s1

/-- `handleSelectionComplete` from `Heatmap.vue`: when both corners exist,
the enumerated cells go through `handleMaskUpdates` and the in-progress
selection is discarded; otherwise the handler returns without touching
anything. -/
def handleSelectionComplete (s : HState) : HState :=
  match s.selectionStart, s.selectionEnd with
  | some st, some en =>
    { s with
      localMask := (handleMaskUpdates s.mode
        (selectedCells st en s.rows s.cols) s.localMask).1
      selectionStart := none
      selectionEnd := none
      isSelecting := false }
  | _, _ => s

/-- `handleMouseUp` from `Heatmap.vue` (primary button): clears the pressed
state and, when a selection is in progress in select tool, updates the end
corner to the cell under the pointer and completes the selection. -/
def handleMouseUp (s : HState) (cell : Option (ℕ × ℕ)) : HState :=
  let s1 := { s with isMousePressed := false, lastMaskedCell := none }
  if s1.isSelecting ∧ s1.tool = "select" then
    let s2 :=
      match cell with
      | some c => { s1 with selectionEnd := some c }
      | none => s1
    handleSelectionComplete s2
  else s1

/-- `handleMouseMove` from `Heatmap.vue`: while selecting in select tool the
end corner follows the pointer; otherwise a shift + pressed-button drag in
mask/erase mode with a non-hand tool and no Ctrl paints the cell under the
pointer when it differs from the last painted cell. -/
def handleMouseMove (s : HState) (cell : Option (ℕ × ℕ)) : HState :=
  if s.isSelecting ∧ s.tool = "select" then
    match cell with
    | some c => { s with selectionEnd := some c }
    | none => s
  else if s.isShiftPressed ∧ s.isMousePressed ∧
      (s.mode = "mask" ∨ s.mode = "erase") ∧ s.isCtrlPressed = false ∧
      s.tool ≠ "hand" then
    match cell with
    | some c =>
      if s.lastMaskedCell ≠ some c then
        { s with
          localMask := (handleMaskUpdate s.mode c s.localMask).1
          lastMaskedCell := some c }
      else s
    | none => s
  else s

/-- The per-cell `mousedown` handler attached to each heatmap rectangle in
`createHeatmap`: in mask/erase mode without Ctrl, the point tool paints the
cell and the shape tool adds a vertex. -/
def handleCellMouseDown (s : HState) (cell : ℕ × ℕ) : HState :=
  let s1 :=
    if (s.mode = "mask" ∨ s.mode = "erase") ∧ s.isCtrlPressed = false ∧
        s.tool = "point" then
      { s with localMask := (handleMaskUpdate s.mode cell s.localMask).1 }
    else s
  if (s1.mode = "mask" ∨ s1.mode = "erase") ∧ s1.isCtrlPressed = false ∧
      s1.tool = "shape" then
    addShapeNode s1 cell
  else s1

/-- One step of the `Heatmap.vue` event loop: dispatches an event to the
corresponding handler. -/
def stepEvent (s : HState) : HEvent → HState
  | .keyDown key => handleKeyDown s key
  | .keyUp key => handleKeyUp s key
  | .mouseDown cell => handleMouseDown s cell
  | .mouseUp cell => handleMouseUp s cell
  | .mouseMove cell => handleMouseMove s cell
  | .cellMouseDown cell => handleCellMouseDown s cell

/-- A whole event sequence, folded through the event loop. -/
def runEvents (s : HState) (events : List HEvent) : HState :=
  events.foldl stepEvent s

/-! ## Claim theorems -/

/-- C6: for every grid coordinate `(row, col)` with non-negative integer
components, decoding the encoded key gives back exactly the coordinate
(`keyToCoord (coordToKey row col) = [row, col]`), and the encoding is
injective: no two distinct coordinates encode to the same key. -/
theorem codec_roundtrip_and_injective (i j : ℕ) :
    keyToCoord (coordToKey i j) = [some (i : ℤ), some (j : ℤ)] ∧
    ∀ i' j' : ℕ, coordToKey i' j' = coordToKey i j → i' = i ∧ j' = j := by
  refine ⟨keyToCoord_coordToKey i j, fun i' j' h => ?_⟩
  have h2 := keyToCoord_coordToKey i' j'
  rw [h, keyToCoord_coordToKey i j] at h2
  simp only [List.cons.injEq, Option.some.injEq, and_true] at h2
  exact ⟨by exact_mod_cast h2.1.symm, by exact_mod_cast h2.2.symm⟩

theorem codec_roundtrip_and_injective_witness :
    keyToCoord (coordToKey 1 23) = [some (1 : ℤ), some (23 : ℤ)] ∧
      (1 = 1 ∧ 23 = 23) :=
  ⟨(codec_roundtrip_and_injective 1 23).1,
    (codec_roundtrip_and_injective 1 23).2 1 23 rfl⟩

/-- C10: the cell parser of the data CSV maps an empty source token to the
explicit "no value" sentinel (`none`), maps the literal token `"0"` to the
number zero — never to the sentinel — and never maps a non-empty token to
the sentinel, so the zero/empty distinction is preserved. -/
theorem parseCell_zero_empty_distinction :
    parseCell [] = none ∧ parseCell ['0'] = some (some 0) ∧
    ∀ cell : List Char, cell ≠ [] → parseCell cell ≠ none := by
  refine ⟨rfl, rfl, fun cell h => ?_⟩
  rw [parseCell, if_pos (Or.inl h)]
  simp

theorem parseCell_zero_empty_distinction_witness :
    (['0'] : List Char) ≠ [] ∧ parseCell ['0'] ≠ none :=
  ⟨by decide, parseCell_zero_empty_distinction.2.2 ['0'] (by decide)⟩

/-- C1 counterexample: with the pre-existing mask `{"0,0"}` and
`S = [(0,0)]`, performing the mask add operation on `S` and then the mask
remove operation on `S` does not restore the membership the key `"0,0"` had
before the add: it was present and ends up absent. -/
theorem addRemove_restore_counterexample :
    ¬ ((coordToKey 0 0 ∈
        (removeMaskCoordinates [((0 : ℕ), (0 : ℕ))]
          (addMaskCoordinates [((0 : ℕ), (0 : ℕ))]
            {coordToKey 0 0}).1).1) ↔
      coordToKey 0 0 ∈ ({coordToKey 0 0} : Finset Key)) := by
  decide

/-- C1 (amended): performing the mask add operation on `S` followed by the
mask remove operation on the same `S` leaves every key of `S` absent from
the mask; consequently it restores a key's pre-add membership exactly for
those keys of `S` that were absent before the add. -/
theorem addRemove_leaves_sKeys_absent (mask : Finset Key) (S : List (ℕ × ℕ))
    (x y : ℕ) (hS : (x, y) ∈ S) :
    coordToKey y x ∉
      (removeMaskCoordinates S (addMaskCoordinates S mask).1).1 ∧
    ((coordToKey y x ∈
        (removeMaskCoordinates S (addMaskCoordinates S mask).1).1 ↔
      coordToKey y x ∈ mask) ↔ coordToKey y x ∉ mask) := by
  have hmem : coordToKey y x ∉
      (removeMaskCoordinates S (addMaskCoordinates S mask).1).1 := by
    rw [removeMaskCoordinates_fst_mem]
    rintro ⟨-, hno⟩
    exact hno ⟨(x, y), hS, rfl⟩
  exact ⟨hmem, by tauto⟩

theorem addRemove_leaves_sKeys_absent_witness :
    ((0 : ℕ), (0 : ℕ)) ∈ [((0 : ℕ), (0 : ℕ))] ∧
    coordToKey 0 0 ∉
      (removeMaskCoordinates [((0 : ℕ), (0 : ℕ))]
        (addMaskCoordinates [((0 : ℕ), (0 : ℕ))] (∅ : Finset Key)).1).1 :=
  ⟨by decide,
    (addRemove_leaves_sKeys_absent ∅ [((0 : ℕ), (0 : ℕ))] 0 0 (by decide)).1⟩

/-- C2: for every local mask `L` and non-empty external snapshot `N`, the
reconciliation step of `updateMask` adds to `L` exactly the keys of `N`
missing from `L` (`toAdd = N − L`), deletes exactly the keys of `L` absent
from `N` (`toRemove = L − N`), leaves the local mask set-equal to `N` (also
in the sense of `areMasksEqual`), and the batch of changed cells is exactly
the symmetric difference of `L` and `N`. -/
theorem updateMask_computes_diff (localMask newMaskSet : Finset Key)
    (h : newMaskSet.Nonempty) :
    maskDiffToAdd localMask newMaskSet = newMaskSet \ localMask ∧
    maskDiffToRemove localMask newMaskSet = localMask \ newMaskSet ∧
    (updateMask localMask newMaskSet).1 = newMaskSet ∧
    (updateMask localMask newMaskSet).2 =
      (newMaskSet \ localMask) ∪ (localMask \ newMaskSet) ∧
    areMasksEqual (some (updateMask localMask newMaskSet).1) newMaskSet
      = true := by
  have h1 : maskDiffToAdd localMask newMaskSet = newMaskSet \ localMask := by
    ext k
    simp only [maskDiffToAdd, Finset.mem_filter, Finset.mem_sdiff]
  have h2 : maskDiffToRemove localMask newMaskSet
      = localMask \ newMaskSet := by
    ext k
    simp only [maskDiffToRemove, h1, Finset.mem_filter, Finset.mem_union,
      Finset.mem_sdiff]
    tauto
  have hcard : 0 < newMaskSet.card := Finset.card_pos.2 h
  have h3 : (updateMask localMask newMaskSet).1 = newMaskSet := by
    rw [updateMask, if_pos hcard]
    ext k
    simp only [h1, h2, Finset.mem_sdiff, Finset.mem_union]
    tauto
  refine ⟨h1, h2, h3, ?_, (areMasksEqual_iff _ _).2 h3⟩
  rw [updateMask, if_pos hcard, h1, h2]

theorem updateMask_computes_diff_witness :
    (updateMask {coordToKey 0 0} {coordToKey 0 1}).1 = {coordToKey 0 1} ∧
    (updateMask {coordToKey 0 0} {coordToKey 0 1}).2 =
      ({coordToKey 0 1} \ {coordToKey 0 0}) ∪
        ({coordToKey 0 0} \ {coordToKey 0 1}) :=
  ⟨(updateMask_computes_diff {coordToKey 0 0} {coordToKey 0 1}
      ⟨coordToKey 0 1, Finset.mem_singleton_self _⟩).2.2.1,
    (updateMask_computes_diff {coordToKey 0 0} {coordToKey 0 1}
      ⟨coordToKey 0 1, Finset.mem_singleton_self _⟩).2.2.2.1⟩

/-! ### Event-machine lemmas -/

lemma handleMaskUpdates_fst_other (mode : String) (coords : List (ℕ × ℕ))
    (m : Finset Key) (h1 : mode ≠ "mask") (h2 : mode ≠ "erase") :
    (handleMaskUpdates mode coords m).1 = m := by
  rw [handleMaskUpdates, if_neg h1, if_neg h2]

lemma closeShape_fst_other (nodes : List (ℕ × ℕ)) (rows cols : ℕ)
    (mode : String) (m : Finset Key) (h1 : mode ≠ "mask")
    (h2 : mode ≠ "erase") : (closeShape nodes rows cols mode m).1 = m := by
  rw [closeShape]
  split_ifs
  · rfl
  · exact handleMaskUpdates_fst_other _ _ _ h1 h2
  · rfl

lemma handleSelectionComplete_mode_tool (s : HState) :
    (handleSelectionComplete s).mode = s.mode ∧
    (handleSelectionComplete s).tool = s.tool := by
  unfold handleSelectionComplete
  cases hs : s.selectionStart <;> cases he : s.selectionEnd <;> simp

lemma handleSelectionComplete_localMask (s : HState) (h1 : s.mode ≠ "mask")
    (h2 : s.mode ≠ "erase") :
    (handleSelectionComplete s).localMask = s.localMask := by
  unfold handleSelectionComplete
  cases hs : s.selectionStart <;> cases he : s.selectionEnd <;>
    simp [handleMaskUpdates_fst_other _ _ _ h1 h2]

lemma addShapeNode_mode_tool (s : HState) (cell : ℕ × ℕ) :
    (addShapeNode s cell).mode = s.mode ∧
    (addShapeNode s cell).tool = s.tool := by
  unfold addShapeNode
  split_ifs <;> simp

lemma addShapeNode_localMask (s : HState) (cell : ℕ × ℕ)
    (h1 : s.mode ≠ "mask") (h2 : s.mode ≠ "erase") :
    (addShapeNode s cell).localMask = s.localMask := by
  unfold addShapeNode
  split_ifs <;> simp [closeShape_fst_other _ _ _ _ _ h1 h2]

lemma stepEvent_mode_tool (s : HState) (e : HEvent) :
    (stepEvent s e).mode = s.mode ∧ (stepEvent s e).tool = s.tool := by
  cases e with
  | keyDown key =>
    simp only [stepEvent, handleKeyDown]
    split_ifs <;> simp
  | keyUp key =>
    simp only [stepEvent, handleKeyUp]
    split_ifs <;> simp
  | mouseDown cell =>
    simp only [stepEvent, handleMouseDown]
    split_ifs <;> cases cell <;> simp
  | mouseUp cell =>
    simp only [stepEvent, handleMouseUp]
    split_ifs with h
    · cases cell with
      | none => exact handleSelectionComplete_mode_tool _
      | some c => exact handleSelectionComplete_mode_tool _
    · simp
  | mouseMove cell =>
    simp only [stepEvent, handleMouseMove]
    split_ifs <;> cases cell <;> (simp; try (split_ifs <;> simp))
  | cellMouseDown cell =>
    simp only [stepEvent, handleCellMouseDown]
    split_ifs with h1 h2 h3
    · exact addShapeNode_mode_tool _ _
    · simp
    · exact addShapeNode_mode_tool _ _
    · simp

lemma stepEvent_localMask (s : HState) (e : HEvent)
    (h : s.tool = "hand" ∨ s.mode = "view") :
    (stepEvent s e).localMask = s.localMask := by
  have hother : s.tool = "hand" ∨ (s.mode ≠ "mask" ∧ s.mode ≠ "erase") := by
    rcases h with h | h
    · exact Or.inl h
    · right
      rw [h]
      simp
  clear h
  cases e with
  | keyDown key =>
    simp only [stepEvent, handleKeyDown]
    rcases hother with h | ⟨h1, h2⟩ <;> split_ifs <;>
      simp_all [closeShape_fst_other]
  | keyUp key =>
    simp only [stepEvent, handleKeyUp]
    split_ifs <;> rfl
  | mouseDown cell =>
    simp only [stepEvent, handleMouseDown]
    split_ifs <;> cases cell <;> rfl
  | mouseUp cell =>
    simp only [stepEvent, handleMouseUp]
    rcases hother with h | ⟨h1, h2⟩
    · split_ifs with hsel
      · exfalso
        revert hsel
        simp [h]
      · rfl
    · split_ifs with hsel
      · cases cell with
        | none => exact handleSelectionComplete_localMask _ h1 h2
        | some c => exact handleSelectionComplete_localMask _ h1 h2
      · rfl
  | mouseMove cell =>
    simp only [stepEvent, handleMouseMove]
    rcases hother with h | ⟨h1, h2⟩ <;> split_ifs <;>
      (try rfl) <;> cases cell <;> simp_all
  | cellMouseDown cell =>
    simp only [stepEvent, handleCellMouseDown]
    rcases hother with h | ⟨h1, h2⟩ <;> split_ifs <;>
      simp_all [addShapeNode_localMask, handleMaskUpdates_fst_other,
        handleMaskUpdate]

/-- C8: for every pointer/keyboard event sequence, when the active tool is
`"hand"` the local mask is never mutated, in every mode; and when the mode
is `"view"`, no event mutates the local mask, with every tool — only modes
`"mask"` and `"erase"` can change mask membership. -/
theorem hand_or_view_never_mutates_mask (s : HState) (events : List HEvent)
    (h : s.tool = "hand" ∨ s.mode = "view") :
    (runEvents s events).localMask = s.localMask := by
  unfold runEvents
  induction events generalizing s with
  | nil => rfl
  | cons e es ih =>
    rw [List.foldl_cons]
    rw [ih (stepEvent s e) ?_, stepEvent_localMask s e h]
    rcases h with h | h
    · exact Or.inl (by rw [(stepEvent_mode_tool s e).2, h])
    · exact Or.inr (by rw [(stepEvent_mode_tool s e).1, h])

theorem hand_or_view_never_mutates_mask_witness :
    (runEvents
      { mode := "mask", tool := "hand", isShiftPressed := true,
        isCtrlPressed := false, isMousePressed := true, isSelecting := false,
        selectionStart := none, selectionEnd := none, lastMaskedCell := none,
        shapeNodes := [], localMask := {coordToKey 0 0}, rows := 3, cols := 3 }
      [HEvent.cellMouseDown (1, 1), HEvent.mouseMove (some (2, 2)),
        HEvent.mouseUp (some (2, 2))]).localMask = {coordToKey 0 0} :=
  hand_or_view_never_mutates_mask _ _ (Or.inl rfl)

/-- C4: on gesture end, the rectangle strategy emits exactly the cells of
the inclusive bounding box spanned by the two corners, clipped to the grid:
for corners `(2,2)` and `(0,0)` on a grid of at least 3 rows and 3 columns
the emitted set is exactly the 9 cells `(0..2, 0..2)`, and the result is
independent of which corner was the start and which was the end. -/
theorem rectangle_selection_cells (rows cols : ℕ) (hr : 3 ≤ rows)
    (hc : 3 ≤ cols) :
    selectedCells (2, 2) (0, 0) rows cols =
      [(0, 0), (1, 0), (2, 0), (0, 1), (1, 1), (2, 1),
        (0, 2), (1, 2), (2, 2)] ∧
    selectedCells (0, 0) (2, 2) rows cols =
      [(0, 0), (1, 0), (2, 0), (0, 1), (1, 1), (2, 1),
        (0, 2), (1, 2), (2, 2)] ∧
    ∀ a b : ℕ × ℕ, selectedCells a b rows cols = selectedCells b a rows cols := by
  have h0c : 0 < cols := by omega
  have h1c : 1 < cols := by omega
  have h2c : 2 < cols := by omega
  have h0r : 0 < rows := by omega
  have h1r : 1 < rows := by omega
  have h2r : 2 < rows := by omega
  refine ⟨?_, ?_, fun a b => ?_⟩
  · norm_num [selectedCells, List.range', List.filterMap_cons, h0c, h1c, h2c,
      h0r, h1r, h2r]
  · norm_num [selectedCells, List.range', List.filterMap_cons, h0c, h1c, h2c,
      h0r, h1r, h2r]
  · simp only [selectedCells, min_comm, max_comm]

theorem rectangle_selection_cells_witness :
    selectedCells (2, 2) (0, 0) 3 3 =
      [(0, 0), (1, 0), (2, 0), (0, 1), (1, 1), (2, 1),
        (0, 2), (1, 2), (2, 2)] ∧
    selectedCells (0, 0) (2, 2) 3 3 =
      [(0, 0), (1, 0), (2, 0), (0, 1), (1, 1), (2, 1),
        (0, 2), (1, 2), (2, 2)] :=
  ⟨(rectangle_selection_cells 3 3 le_rfl le_rfl).1,
    (rectangle_selection_cells 3 3 le_rfl le_rfl).2.1⟩

/-- C5: the device-to-grid mapping subtracts the viewport-relative origin,
inverts the translate-and-scale transform, subtracts the centering offset,
divides by the cell size and floors; for a viewport of width 600, a grid of
10 columns with 6px cells and the identity transform, a pointer at
horizontal pixel 300 maps to column 5; and a cell is only ever returned
when it lies inside `[0,cols) × [0,rows)` (outside, the result is
`none`). -/
theorem deviceToGrid_center_and_bounds :
    getCellFromMousePosition 300 300 0 0 600 600 0 0 1 10 10
      = some (5, 5) ∧
    ∀ (clientX clientY rectLeft rectTop rectWidth rectHeight tx ty k : ℚ)
      (rows cols : ℕ) (c : ℤ × ℤ),
      getCellFromMousePosition clientX clientY rectLeft rectTop rectWidth
        rectHeight tx ty k rows cols = some c →
      0 ≤ c.1 ∧ c.1 < (cols : ℤ) ∧ 0 ≤ c.2 ∧ c.2 < (rows : ℤ) := by
  constructor
  · norm_num [getCellFromMousePosition, squareSize]
  · intro clientX clientY rectLeft rectTop rectWidth rectHeight tx ty k
      rows cols c h
    rw [getCellFromMousePosition] at h
    split_ifs at h with hb
    simp only [Option.some.injEq] at h
    subst h
    exact hb

theorem deviceToGrid_center_and_bounds_witness :
    0 ≤ ((5 : ℤ), (5 : ℤ)).1 ∧ ((5 : ℤ), (5 : ℤ)).1 < ((10 : ℕ) : ℤ) ∧
    0 ≤ ((5 : ℤ), (5 : ℤ)).2 ∧ ((5 : ℤ), (5 : ℤ)).2 < ((10 : ℕ) : ℤ) :=
  deviceToGrid_center_and_bounds.2 300 300 0 0 600 600 0 0 1 10 10 (5, 5)
    deviceToGrid_center_and_bounds.1

/-! ### Dense-matrix lemmas -/

lemma getD_map_range {α : Type} (f : ℕ → α) (d : α) (n i : ℕ) (hi : i < n) :
    ((List.range n).map f).getD i d = f i := by
  rw [List.getD_eq_getElem _ _
      (by rw [List.length_map, List.length_range]; exact hi),
    List.getElem_map, List.getElem_range]

lemma mem_arrayToSet {A : List (List Bool)} {k : Key} :
    k ∈ arrayToSet A ↔ ∃ i, i < A.length ∧ ∃ j, j < (A.getD i []).length ∧
      (A.getD i []).getD j false = true ∧ k = coordToKey i j := by
  simp only [arrayToSet, List.mem_toFinset, List.mem_flatMap,
    List.mem_filterMap, List.mem_range]
  constructor
  · rintro ⟨i, hi, j, hj, hf⟩
    split_ifs at hf with ht
    simp only [Option.some.injEq] at hf
    exact ⟨i, hi, j, hj, ht, hf.symm⟩
  · rintro ⟨i, hi, j, hj, ht, rfl⟩
    exact ⟨i, hi, j, hj, by rw [if_pos ht]⟩

lemma setToArray_length (M : Finset Key) (rows cols : ℕ) :
    (setToArray M rows cols).length = rows := by
  rw [setToArray, List.length_map, List.length_range]

lemma setToArray_getD (M : Finset Key) (rows cols i : ℕ) (hi : i < rows) :
    (setToArray M rows cols).getD i [] =
      (List.range cols).map fun (j : ℕ) =>
        decide (∃ k ∈ M, (keyToCoord k).getD 0 none = some (i : ℤ) ∧
          (keyToCoord k).getD 1 none = some (j : ℤ)) := by
  rw [setToArray]
  exact getD_map_range _ _ _ _ hi

lemma setToArray_row_length (M : Finset Key) (rows cols i : ℕ)
    (hi : i < rows) : ((setToArray M rows cols).getD i []).length = cols := by
  rw [setToArray_getD M rows cols i hi, List.length_map, List.length_range]

lemma setToArray_entry (M : Finset Key) (rows cols i j : ℕ) (hi : i < rows)
    (hj : j < cols) :
    (((setToArray M rows cols).getD i []).getD j false = true ↔
      ∃ k ∈ M, (keyToCoord k).getD 0 none = some (i : ℤ) ∧
        (keyToCoord k).getD 1 none = some (j : ℤ)) := by
  rw [setToArray_getD M rows cols i hi, getD_map_range _ _ _ _ hj,
    decide_eq_true_eq]

/-- C7: for every `rows`, `cols` and every mask whose member keys all encode
coordinates in `[0,rows) × [0,cols)`, converting the mask to a dense
`rows × cols` boolean matrix and back yields exactly the original mask; and
in the matrix-to-set direction, every `true` cell of a dense matrix becomes
a member of the resulting mask. -/
theorem denseMatrix_roundtrip (rows cols : ℕ) (M : Finset Key)
    (hM : ∀ k ∈ M, ∃ i j : ℕ, i < rows ∧ j < cols ∧ k = coordToKey i j) :
    arrayToSet (setToArray M rows cols) = M ∧
    ∀ (A : List (List Bool)) (i j : ℕ), i < A.length →
      j < (A.getD i []).length → (A.getD i []).getD j false = true →
      coordToKey i j ∈ arrayToSet A := by
  constructor
  · ext k
    rw [mem_arrayToSet]
    constructor
    · rintro ⟨i, hi, j, hj, ht, rfl⟩
      rw [setToArray_length] at hi
      rw [setToArray_row_length M rows cols i hi] at hj
      rw [setToArray_entry M rows cols i j hi hj] at ht
      obtain ⟨k', hk', hc0, hc1⟩ := ht
      obtain ⟨i', j', _, _, rfl⟩ := hM k' hk'
      rw [keyToCoord_coordToKey] at hc0 hc1
      simp only [List.getD_cons_zero, Option.some.injEq, Nat.cast_inj] at hc0
      simp only [List.getD_cons_succ, List.getD_cons_zero, Option.some.injEq,
        Nat.cast_inj] at hc1
      rw [← hc0, ← hc1]
      exact hk'
    · intro hk
      obtain ⟨i, j, hi, hj, rfl⟩ := hM k hk
      refine ⟨i, ?_, j, ?_, ?_, rfl⟩
      · rw [setToArray_length]
        exact hi
      · rw [setToArray_row_length M rows cols i hi]
        exact hj
      · rw [setToArray_entry M rows cols i j hi hj]
        refine ⟨coordToKey i j, hk, ?_, ?_⟩ <;>
          simp [keyToCoord_coordToKey]
  · intro A i j hi hj ht
    rw [mem_arrayToSet]
    exact ⟨i, hi, j, hj, ht, rfl⟩

theorem denseMatrix_roundtrip_witness :
    arrayToSet (setToArray {coordToKey 0 1} 2 2) = {coordToKey 0 1} :=
  (denseMatrix_roundtrip 2 2 {coordToKey 0 1}
    (fun k hk => ⟨0, 1, by omega, by omega, by simpa using hk⟩)).1

/-! ### Polygon rasterization lemmas -/

lemma mem_closeShapeCells {nodes : List (ℕ × ℕ)} {rows cols x y : ℕ}
    (h3 : ¬nodes.length < 3) :
    (x, y) ∈ closeShapeCells nodes rows cols ↔
      y < rows ∧ x < cols ∧
      isCellIntersectingPolygon (x : ℚ) (y : ℚ)
        (nodes.map fun c => ((c.1 : ℚ), (c.2 : ℚ))) = true := by
  rw [closeShapeCells, if_neg h3]
  simp only [List.mem_flatMap, List.mem_filterMap, List.mem_range]
  constructor
  · rintro ⟨y', hy', x', hx', hf⟩
    split_ifs at hf with ht
    simp only [Option.some.injEq, Prod.mk.injEq] at hf
    obtain ⟨rfl, rfl⟩ := hf
    exact ⟨hy', hx', ht⟩
  · rintro ⟨hy, hx, ht⟩
    exact ⟨y, hy, x, hx, by rw [if_pos ht]⟩

/-- C3: committing the polygon (shape) strategy with the triangle vertex
list `(0,0), (0,4), (4,0)` produces a rasterized cell set (here on a 5×5
grid) that includes cell `(1,1)` and excludes cell `(3,3)`, via the
cell-center ray-casting point-in-polygon test with the edge/cell-rectangle
segment-intersection fallback; committing with only 2 vertices produces the
empty cell set and leaves the mask unchanged. -/
theorem polygon_triangle_and_degenerate :
    (1, 1) ∈ closeShapeCells [(0, 0), (0, 4), (4, 0)] 5 5 ∧
    (3, 3) ∉ closeShapeCells [(0, 0), (0, 4), (4, 0)] 5 5 ∧
    ∀ (v1 v2 : ℕ × ℕ) (rows cols : ℕ) (mode : String) (m : Finset Key),
      closeShapeCells [v1, v2] rows cols = [] ∧
      closeShape [v1, v2] rows cols mode m = (m, none) := by
  refine ⟨?_, ?_, fun v1 v2 rows cols mode m => ⟨?_, ?_⟩⟩
  · rw [mem_closeShapeCells (by norm_num)]
    norm_num [isCellIntersectingPolygon, isPointInPolygon, lineIntersectsRect,
      linesIntersect, List.range_succ]
  · rw [mem_closeShapeCells (by norm_num)]
    norm_num [isCellIntersectingPolygon, isPointInPolygon, lineIntersectsRect,
      linesIntersect, List.range_succ]
  · rw [closeShapeCells, if_pos (by norm_num)]
  · rw [closeShape, if_pos (by norm_num)]

/-! ### Malformed-key lemmas -/

/-- A decimal numeral: non-empty and all characters decimal digits. -/
def isNumeral (s : List Char) : Bool :=
  !s.isEmpty && s.all fun c => (charDigit? c).isSome

lemma foldl_digitStep_none (s : List Char) :
    s.foldl
      (fun acc c => acc.bind fun a => (charDigit? c).map fun d => 10 * a + d)
      none = none := by
  induction s with
  | nil => rfl
  | cons c rest ih => simpa using ih

lemma foldl_digitStep_eq_none (s : List Char) (acc : Option ℕ)
    (h : ∃ c ∈ s, charDigit? c = none) :
    s.foldl
      (fun acc c => acc.bind fun a => (charDigit? c).map fun d => 10 * a + d)
      acc = none := by
  induction s generalizing acc with
  | nil => simp at h
  | cons c0 rest ih =>
    rw [List.foldl_cons]
    obtain ⟨c, hc, hbad⟩ := h
    rcases List.mem_cons.1 hc with rfl | hc'
    · rw [show (acc.bind fun a =>
          (charDigit? c).map fun d => 10 * a + d) = none by
        rcases acc <;> simp [hbad]]
      exact foldl_digitStep_none rest
    · exact ih _ ⟨c, hc', hbad⟩

lemma jsNumber_of_nanChar {s : List Char} {c : Char} (hc : c ∈ s)
    (hnan : ¬jsNumericChar c) : jsNumber s = none := by
  simp only [jsNumericChar, not_or] at hnan
  obtain ⟨-, -, -, hminus, -, hdig, -⟩ := hnan
  have hcd : charDigit? c = none := by
    rw [charDigit?, if_neg hdig]
  rw [jsNumber]
  split_ifs with hm ht
  · rfl
  · have hcmem : c ∈ s.tail := by
      cases s with
      | nil => simp at hc
      | cons c0 rest =>
        simp only [List.head?_cons, Option.some.injEq] at hm
        rcases List.mem_cons.1 hc with rfl | hcr
        · exact absurd hm hminus
        · exact hcr
    have hdv : digitsVal s.tail = none :=
      foldl_digitStep_eq_none _ _ ⟨c, hcmem, hcd⟩
    rw [hdv]
    rfl
  · have hdv : digitsVal s = none :=
      foldl_digitStep_eq_none _ _ ⟨c, hc, hcd⟩
    rw [hdv]
    rfl

/-- C9 counterexample: the key `","` has two comma-separated components,
both empty — not numerals — yet `keyToCoord` does not reject it: JS
`Number("")` coerces the empty components to `0`, so the key decodes to the
same value as the genuine key `"0,0"`, i.e. the valid grid coordinate
`(0, 0)`.  The decode operation performs no validation. -/
theorem keyToCoord_no_validation_counterexample :
    (∀ comp ∈ splitOnComma [','], isNumeral comp = false) ∧
    keyToCoord [','] = [some (0 : ℤ), some (0 : ℤ)] ∧
    keyToCoord [','] = keyToCoord (coordToKey 0 0) := by
  refine ⟨by decide, by decide, by decide⟩

/-- C9 (amended): the key decode operation performs no validation: a
non-numeral component that JS `Number` can nonetheless read (empty — as in
the counterexample key `","` — whitespace-padded, sign-prefixed,
fractional, exponent, hex or `Infinity` forms) still decodes to a number,
so such keys can yield a valid grid coordinate; only a component containing
a character that cannot occur in any JS numeric string (outside
`jsNumericChar`, e.g. a letter like `'g'`) is guaranteed to parse to `NaN`,
and such keys never decode to a valid grid coordinate. -/
theorem keyToCoord_nan_forcing_component (key : Key) (comp : List Char)
    (c : Char) (hmem : comp ∈ splitOnComma key) (hc : c ∈ comp)
    (hnan : ¬jsNumericChar c) : none ∈ keyToCoord key := by
  rw [keyToCoord, List.mem_map]
  exact ⟨comp, hmem, jsNumber_of_nanChar hc hnan⟩

theorem keyToCoord_nan_forcing_component_witness :
    none ∈ keyToCoord ['g', ',', '1'] :=
  keyToCoord_nan_forcing_component ['g', ',', '1'] ['g'] 'g' (by decide)
    (by decide) (by decide)
